import Mathlib

/-!
Verification development for `junit_xml_to_allure.py`, a JUnit-XML to
Allure-results converter.  The Python source is shallowly embedded below:
pure helper functions become Lean functions over `String`/`Int`/`Rat`/lists,
the per-suite conversion loop becomes a structural recursion threading an
explicit state record, and the nondeterministic inputs of the program
(wall-clock `ms_now()`, the `uuid4()` identifier source) become explicit
parameters (an `Int` start instant, a `Nat` fresh-token counter).

Modelling conventions, used throughout:
* Python `str.strip()` is modelled over ASCII whitespace (`pyStrip`).
* Python `s.split(sep)` / `sep.join(l)` / `s.startswith(p)` are modelled by
  `pySplit` / `pyJoin` / `pyStartsWith` over the character lists of the
  strings; `pySplit` is only faithful for a non-empty separator (Python
  raises `ValueError` on an empty separator), so theorems about splitting
  carry a `sep ≠ ""` hypothesis.
* Python truthiness in `x or y` is modelled by `pyOrS` / `pyOrOptS` (empty
  string and `None` are falsy) and `pyOrInt` (zero is falsy).
* A `<testcase time="...">` attribute is modelled as `Option Rat`: `some q`
  holds the exact rational value of the successfully parsed float, `none`
  covers both an absent attribute and a parse failure (`to_ms` treats the
  two identically).  The float product `float(s) * 1000.0` is modelled as
  exact rational multiplication; every concrete instance used in a proof
  below is exactly representable, so the model and the IEEE-754 computation
  agree there.
* `int(...)` applied to a float is truncation toward zero (`ratTrunc`).
-/

/-- Python `a or b` for an optional string `a` (absent and `""` are falsy). -/
def pyOrOptS (a : Option String) (b : String) : String :=
  match a with
  | none => b
  | some s => if s = "" then b else s

/-- Python `a or b` for strings (`""` is falsy). -/
def pyOrS (a b : String) : String :=
  if a = "" then b else a

/-- Python `a or b` for integers (`0` is falsy). -/
def pyOrInt (a b : Int) : Int :=
  if a = 0 then b else a

/-- ASCII whitespace, the character class stripped by Python `str.strip()`
on the inputs considered here. -/
def isPyWhitespace (c : Char) : Bool :=
  c = ' ' || c = '\t' || c = '\n' || c = '\r' || c = '\x0b' || c = '\x0c'

/-- Python `s.strip()`: remove leading and trailing whitespace. -/
def pyStrip (s : String) : String :=
  String.mk (((s.data.dropWhile isPyWhitespace).reverse.dropWhile isPyWhitespace).reverse)

/-- Worker for `pySplit`; `fuel` bounds the recursion (call sites supply the
input length, which suffices because each step consumes at least one
character when the separator is non-empty). -/
def pySplitGo (sep : List Char) : Nat → List Char → List Char → List (List Char)
  | _, acc, [] => [acc.reverse]
  | 0, acc, rest => [acc.reverse ++ rest]
  | fuel + 1, acc, c :: rest =>
    if sep.isPrefixOf (c :: rest) then
      acc.reverse :: pySplitGo sep fuel [] (List.drop sep.length (c :: rest))
    else
      pySplitGo sep fuel (c :: acc) rest

/-- Python `s.split(sep)` for a non-empty separator `sep`: split on each
leftmost non-overlapping occurrence, keeping empty parts.  (Python raises
`ValueError` on an empty separator; the model returns `[s]` there, and all
theorems about splitting assume `sep ≠ ""`.) -/
def pySplit (s sep : String) : List String :=
  if sep.data = [] then [s]
  else (pySplitGo sep.data (s.data.length + sep.data.length) [] s.data).map String.mk

/-- Python `sep.join(l)`. -/
def pyJoin (sep : String) : List String → String
  | [] => ""
  | [x] => x
  | x :: xs => x ++ sep ++ pyJoin sep xs

/-- Python `s.startswith(p)`. -/
def pyStartsWith (s p : String) : Bool :=
  p.data.isPrefixOf s.data

/-- Python `s[n:]` for a non-negative character index `n`. -/
def pyDropStr (s : String) (n : Nat) : String :=
  String.mk (s.data.drop n)

/-- Truncation toward zero, the behaviour of Python `int()` on a number. -/
def ratTrunc (q : Rat) : Int :=
  if 0 ≤ q then ⌊q⌋ else -⌊-q⌋

/-! ## Input data model

An XML `<testcase>`/`<testsuite>` element, restricted to exactly the
attributes and children the converter reads.  A missing attribute is `none`
(ElementTree `get` returns `None`); markers model the first `<failure>` /
`<error>` / `<skipped>` child found by `Element.find` (absent element =
`none`).  Raw property elements keep their optional `name`/`value`
attributes, as `collect_properties` has to handle their absence itself. -/

/-- A `<failure>`, `<error>` or `<skipped>` child: `message` / `type`
attributes and the element text body. -/
structure Marker where
  message : Option String
  type : Option String
  text : Option String
deriving DecidableEq, Repr

/-- A `<testcase>` element as read by the converter.  `time` is `some q`
where `q` is the exact value of the successfully parsed float, `none` when
the attribute is absent or unparsable (see the header comment). -/
structure TestCase where
  classname : Option String
  name : Option String
  time : Option Rat
  failure : Option Marker
  error : Option Marker
  skipped : Option Marker
  properties : List (Option String × Option String)
deriving DecidableEq, Repr

/-- A `<testsuite>` element as read by the converter. -/
structure TestSuite where
  name : Option String
  properties : List (Option String × Option String)
  testcases : List TestCase
deriving DecidableEq, Repr

/-! ## Output data model -/

/-- An Allure label `{"name": ..., "value": ...}`. -/
structure Label where
  name : String
  value : String
deriving DecidableEq, Repr

/-- An Allure link `{"name": ..., "url": ...}`. -/
structure Link where
  name : String
  url : String
deriving DecidableEq, Repr

/-- An Allure parameter `{"name": ..., "value": ...}`. -/
structure Param where
  name : String
  value : String
deriving DecidableEq, Repr

/-- The `statusDetails` payload when a marker is present.  In the emitted
JSON, `map_status` produces either the empty object `{}` (modelled below as
`none`) or `{"message": m, "trace": t}` (modelled as `some ⟨m, t⟩`). -/
structure StatusDetails where
  message : String
  trace : String
deriving DecidableEq, Repr

/-- One `*-result.json` document.  The fresh `uuid4()` token is modelled as
a `Nat` drawn from an explicit counter (see the header comment); the
constant-empty `steps` and `attachments` arrays are omitted. -/
structure ResultDocument where
  uuid : Nat
  historyId : String
  name : String
  fullName : String
  status : String
  statusDetails : Option StatusDetails
  stage : String
  parameters : List Param
  labels : List Label
  links : List Link
  start : Int
  stop : Int
deriving DecidableEq, Repr

/-- One `*-container.json` document. -/
structure ContainerDocument where
  uuid : Nat
  name : String
  children : List Nat
  befores : List Unit
  afters : List Unit
  links : List Link
  start : Int
  stop : Int
deriving DecidableEq, Repr

/-! ## MD5 (RFC 1321), the digest behind `hashlib.md5(...).hexdigest()`

32-bit words are `Nat` values reduced mod `2 ^ 32`; the message is the list
of UTF-8 bytes of the input string. -/

namespace MD5

/-- Bitwise complement on 32-bit words. -/
def not32 (x : Nat) : Nat :=
  4294967295 - x % 4294967296

/-- Left rotation of a 32-bit word by `n` (for `0 < n < 32`). -/
def rotl32 (x n : Nat) : Nat :=
  ((x <<< n) ||| (x >>> (32 - n))) % 4294967296

/-- The 64 sine-derived round constants `K[i] = floor(2^32 * |sin(i+1)|)`. -/
def K : List Nat :=
  [0xd76aa478, 0xe8c7b756, 0x242070db, 0xc1bdceee,
   0xf57c0faf, 0x4787c62a, 0xa8304613, 0xfd469501,
   0x698098d8, 0x8b44f7af, 0xffff5bb1, 0x895cd7be,
   0x6b901122, 0xfd987193, 0xa679438e, 0x49b40821,
   0xf61e2562, 0xc040b340, 0x265e5a51, 0xe9b6c7aa,
   0xd62f105d, 0x02441453, 0xd8a1e681, 0xe7d3fbc8,
   0x21e1cde6, 0xc33707d6, 0xf4d50d87, 0x455a14ed,
   0xa9e3e905, 0xfcefa3f8, 0x676f02d9, 0x8d2a4c8a,
   0xfffa3942, 0x8771f681, 0x6d9d6122, 0xfde5380c,
   0xa4beea44, 0x4bdecfa9, 0xf6bb4b60, 0xbebfbc70,
   0x289b7ec6, 0xeaa127fa, 0xd4ef3085, 0x04881d05,
   0xd9d4d039, 0xe6db99e5, 0x1fa27cf8, 0xc4ac5665,
   0xf4292244, 0x432aff97, 0xab9423a7, 0xfc93a039,
   0x655b59c3, 0x8f0ccc92, 0xffeff47d, 0x85845dd1,
   0x6fa87e4f, 0xfe2ce6e0, 0xa3014314, 0x4e0811a1,
   0xf7537e82, 0xbd3af235, 0x2ad7d2bb, 0xeb86d391]

/-- The per-round left-rotation amounts. -/
def S : List Nat :=
  [7, 12, 17, 22, 7, 12, 17, 22, 7, 12, 17, 22, 7, 12, 17, 22,
   5, 9, 14, 20, 5, 9, 14, 20, 5, 9, 14, 20, 5, 9, 14, 20,
   4, 11, 16, 23, 4, 11, 16, 23, 4, 11, 16, 23, 4, 11, 16, 23,
   6, 10, 15, 21, 6, 10, 15, 21, 6, 10, 15, 21, 6, 10, 15, 21]

/-- One of the 64 compression steps on the state `(a, b, c, d)`, given the
16 message words `M` of the current block. -/
def md5Step (M : List Nat) (st : Nat × Nat × Nat × Nat) (i : Nat) : Nat × Nat × Nat × Nat :=
  let a := st.1
  let b := st.2.1
  let c := st.2.2.1
  let d := st.2.2.2
  let fg : Nat × Nat :=
    if i < 16 then ((b &&& c) ||| (not32 b &&& d), i)
    else if i < 32 then ((d &&& b) ||| (not32 d &&& c), (5 * i + 1) % 16)
    else if i < 48 then (b ^^^ c ^^^ d, (3 * i + 5) % 16)
    else (c ^^^ (b ||| not32 d), (7 * i) % 16)
  let f := (fg.1 + a + K.getD i 0 + M.getD fg.2 0) % 4294967296
  (d, (b + rotl32 f (S.getD i 0)) % 4294967296, b, c)

/-- Decode a 64-byte block into 16 little-endian 32-bit words. -/
def toWords : List Nat → List Nat
  | b0 :: b1 :: b2 :: b3 :: rest =>
    (b0 + (b1 <<< 8) + (b2 <<< 16) + (b3 <<< 24)) :: toWords rest
  | _ => []

/-- Process one block: run the 64 steps and add the result into the state. -/
def processBlock (st : Nat × Nat × Nat × Nat) (block : List Nat) : Nat × Nat × Nat × Nat :=
  let M := toWords block
  let r := (List.range 64).foldl (md5Step M) st
  ((st.1 + r.1) % 4294967296, (st.2.1 + r.2.1) % 4294967296,
   (st.2.2.1 + r.2.2.1) % 4294967296, (st.2.2.2 + r.2.2.2) % 4294967296)

/-- Split the padded message into 64-byte chunks (`fuel` bounds recursion;
call sites pass the list length). -/
def chunk64 : Nat → List Nat → List (List Nat)
  | _, [] => []
  | 0, l => [l]
  | fuel + 1, l => l.take 64 :: chunk64 fuel (l.drop 64)

/-- MD5 padding: a `0x80` byte, zeros to 56 mod 64, then the bit length as
a 64-bit little-endian quantity. -/
def padded (msg : List Nat) : List Nat :=
  let len := msg.length
  let zeros := (119 - len % 64) % 64
  msg ++ [0x80] ++ List.replicate zeros 0 ++
    (List.range 8).map fun i => (((len * 8) % 18446744073709551616) >>> (8 * i)) % 256

/-- UTF-8 bytes of a string. -/
def utf8Bytes (s : String) : List Nat :=
  (s.data.map fun c => (String.utf8EncodeChar c).map UInt8.toNat).flatten

/-- One lowercase hex digit. -/
def hexDigit (n : Nat) : Char :=
  if n < 10 then Char.ofNat (48 + n) else Char.ofNat (87 + n)

/-- Two lowercase hex digits of a byte. -/
def byteHex (b : Nat) : String :=
  String.mk [hexDigit (b / 16), hexDigit (b % 16)]

/-- A 32-bit word as 8 hex digits, least significant byte first. -/
def wordHexLE (w : Nat) : String :=
  byteHex (w % 256) ++ byteHex (w / 256 % 256) ++ byteHex (w / 65536 % 256) ++
    byteHex (w / 16777216 % 256)

/-- The full digest: lowercase hexadecimal MD5 of the UTF-8 bytes of `s`. -/
def md5hex (s : String) : String :=
  let msg := padded (utf8Bytes s)
  let st := (chunk64 msg.length msg).foldl processBlock
    (0x67452301, 0xefcdab89, 0x98badcfe, 0x10325476)
  wordHexLE st.1 ++ wordHexLE st.2.1 ++ wordHexLE st.2.2.1 ++ wordHexLE st.2.2.2

end MD5

/-! ## Helpers (source lines 36-152) -/

/-- Source `stable_hash` (lines 41-43): `hashlib.md5(s.encode("utf-8")).hexdigest()`.
Implemented above as MD5 over the UTF-8 bytes of `s` (RFC 1321), with 32-bit
words as `Nat` reduced mod `2 ^ 32`. -/
def stable_hash (s : String) : String :=
  MD5.md5hex s

/-- Source `split_classname` (lines 45-52): split a dotted classname into
`(package, class)` at the last dot (`classname.rsplit(".", 1)`); no dot
means empty package; empty classname means both empty. -/
def split_classname (classname : String) : String × String :=
  if classname = "" then ("", "")
  else if classname.data.contains '.' then
    let parts := pySplit classname "."
    (pyJoin "." parts.dropLast, parts.getLastD "")
  else ("", classname)

/-- Source `derive_suite_labels` (lines 54-74): derive parentSuite/suite/subSuite
labels from the testsuite name. -/
def derive_suite_labels (ts_name sep default_parent : String) : List Label :=
  let parts := if ts_name = "" then [] else (pySplit ts_name sep).map pyStrip
  match parts with
  | p0 :: p1 :: p2 :: rest =>
    [⟨"parentSuite", p0⟩, ⟨"suite", p1⟩, ⟨"subSuite", pyJoin sep (p2 :: rest)⟩]
  | [p0, p1] => [⟨"parentSuite", p0⟩, ⟨"suite", p1⟩]
  | [p0] =>
    if p0 ≠ "" then [⟨"parentSuite", default_parent⟩, ⟨"suite", p0⟩] else []
  | [] => []

/-- Source `map_status` (lines 76-100): classify `<failure>`/`<error>`/`<skipped>`
markers, in that priority order, into an Allure status and details.  The
Python function returns the dict `{}` for a passed case (modelled `none`)
and `{"message": ..., "trace": ...}` otherwise (modelled `some`). -/
def map_status (tc : TestCase) : String × Option StatusDetails :=
  match tc.failure with
  | some f => ("failed", some ⟨pyStrip (pyOrOptS f.message ""), pyStrip (f.text.getD "")⟩)
  | none =>
    match tc.error with
    | some e => ("broken", some ⟨pyStrip (pyOrOptS e.message ""), pyStrip (e.text.getD "")⟩)
    | none =>
      match tc.skipped with
      | some sk =>
        ("skipped",
         some ⟨pyStrip (pyOrOptS sk.message (pyOrOptS sk.type "")), pyStrip (sk.text.getD "")⟩)
      | none => ("passed", none)

/-- Source `to_ms` (lines 102-108): `int(float(seconds_str) * 1000.0)`, or `None`
when the attribute is absent or parsing fails.  With `q` the exact value of
the parsed float, `int(q * 1000.0)` is truncation toward zero of `q * 1000`,
computed here directly on the fraction as `tdiv (num * 1000) den`
(`to_ms_some` below relates this to the floor-based `ratTrunc`). -/
def to_ms (t : Option Rat) : Option Int :=
  t.map fun q => Int.tdiv (q.num * 1000) (q.den : Int)

/-- Source `testcase_timing` (lines 110-123): derive `(start, stop)` for a case
from the running cursor; absent/unparsable duration yields a 1 ms span. -/
def testcase_timing (tc : TestCase) (suite_start_ms : Int) : Int × Int :=
  match to_ms tc.time with
  | none => (suite_start_ms, max (suite_start_ms + 1) suite_start_ms)
  | some duration => (suite_start_ms, suite_start_ms + duration)

/-- Python-dict insertion: an existing key keeps its position and gets the
new value, a new key is appended. -/
def dictInsert (d : List (String × String)) (k v : String) : List (String × String) :=
  if d.any (fun p => p.1 = k) then
    d.map fun p => if p.1 = k then (k, v) else p
  else d ++ [(k, v)]

/-- Source `collect_properties` (lines 125-134): build the property dict from the
raw `<property>` elements, skipping those with a missing or empty `name`
and defaulting a missing `value` to `""`.  (The suite-level property loop,
lines 190-195, inlines exactly the same logic.) -/
def collect_properties (raw : List (Option String × Option String)) : List (String × String) :=
  raw.foldl
    (fun d p =>
      match p.1 with
      | some n => if n ≠ "" then dictInsert d n (p.2.getD "") else d
      | none => d)
    []

/-- The body of the `for k, v in props.items()` loop (lines 145-151): an
`if`/`elif` chain appending to one of the three accumulators, falling
through silently when no prefix matches. -/
def propStep (acc : List Label × List Link × List Param) (kv : String × String) :
    List Label × List Link × List Param :=
  if pyStartsWith kv.1 "allure.label." then
    (acc.1 ++ [⟨pyDropStr kv.1 ("allure.label.".length), kv.2⟩], acc.2.1, acc.2.2)
  else if pyStartsWith kv.1 "allure.link." then
    (acc.1, acc.2.1 ++ [⟨pyDropStr kv.1 ("allure.link.".length), kv.2⟩], acc.2.2)
  else if pyStartsWith kv.1 "allure.param." then
    (acc.1, acc.2.1, acc.2.2 ++ [⟨pyDropStr kv.1 ("allure.param.".length), kv.2⟩])
  else acc

/-- Source `map_properties_to_labels_links_params` (lines 136-152): route each
property by recognized key prefix into labels / links / parameters. -/
def map_properties_to_labels_links_params (props : List (String × String)) :
    List Label × List Link × List Param :=
  props.foldl propStep ([], [], [])

/-- The label routing rule as the specification states it: a key with the
`allure.label.` prefix yields a label named by the suffix.  Stated
separately from `propStep` so that `map_properties_to_labels_links_params`
can be proved equal to the three routing `filterMap`s. -/
def labelOfProp (kv : String × String) : Option Label :=
  if pyStartsWith kv.1 "allure.label." then
    some ⟨pyDropStr kv.1 ("allure.label.".length), kv.2⟩
  else none

/-- The link routing rule (reachable only when the label rule did not
match, mirroring the `elif`). -/
def linkOfProp (kv : String × String) : Option Link :=
  if pyStartsWith kv.1 "allure.label." then none
  else if pyStartsWith kv.1 "allure.link." then
    some ⟨pyDropStr kv.1 ("allure.link.".length), kv.2⟩
  else none

/-- The parameter routing rule (reachable only when neither earlier rule
matched). -/
def paramOfProp (kv : String × String) : Option Param :=
  if pyStartsWith kv.1 "allure.label." then none
  else if pyStartsWith kv.1 "allure.link." then none
  else if pyStartsWith kv.1 "allure.param." then
    some ⟨pyDropStr kv.1 ("allure.param.".length), kv.2⟩
  else none

/-! ## Per-suite conversion (`convert_file`, source lines 156-262)

`convert_file` parses a file, extracts its `<testsuite>` elements, and for
each suite runs the loop of lines 170-262.  The per-suite body is embedded
as `convertSuite`.  The two nondeterministic inputs are explicit: the
suite's `ms_now()` start instant (an `Int` parameter) and the `uuid4()`
source (a `Nat` counter: the suite consumes `u0`, the cases consume
`u0 + 1, u0 + 2, ...`; freshness of `uuid4()` is represented by the
counter's injectivity).  Writing `{uuid}-result.json` files is modelled by
returning the list of `ResultDocument`s next to the container. -/

/-- The suite-constant data threaded through the case loop: the configured
framework name, the suite hierarchy labels, the suite-level property-derived
labels and links, and the suite start instant (ms). -/
structure SuiteCtx where
  framework_name : String
  suite_labels : List Label
  sp_labels : List Label
  sp_links : List Link
  suite_start : Int
deriving DecidableEq, Repr

/-- The body of the `for tc in ts.findall("testcase")` loop (lines 199-254),
assembling one `ResultDocument` from one `<testcase>` given the fresh token
`tr_uuid` and the current timing cursor. -/
def mapCase (ctx : SuiteCtx) (tc : TestCase) (tr_uuid : Nat) (cursor : Int) : ResultDocument :=
  let classname := tc.classname.getD ""
  let name := pyOrOptS tc.name "test"
  let pc := split_classname classname
  let method := name
  let sd := map_status tc
  let timing := testcase_timing tc cursor
  let plp := map_properties_to_labels_links_params (collect_properties tc.properties)
  let full_name := pyJoin "." (List.filter (fun x => x ≠ "") [pc.1, pc.2, method])
  { uuid := tr_uuid
    historyId := stable_hash (pyOrS full_name (classname ++ "::" ++ name))
    name := method
    fullName := pyOrS full_name method
    status := sd.1
    statusDetails := sd.2
    stage := "finished"
    parameters := plp.2.2
    labels :=
      [⟨"framework", ctx.framework_name⟩, ⟨"language", "unknown"⟩] ++
        (if pc.1 ≠ "" then [⟨"package", pc.1⟩] else []) ++
        (if pc.2 ≠ "" then [⟨"testClass", pc.2⟩] else []) ++
        (if method ≠ "" then [⟨"testMethod", method⟩] else []) ++
        ctx.suite_labels ++ ctx.sp_labels ++ plp.1
    links := ctx.sp_links ++ plp.2.1
    start := timing.1
    stop := timing.2 }

/-- The mutable state of the suite loop: the `last_stop` cursor, the running
`container["stop"]`, the next fresh token, and the accumulated
`container["children"]` and written result documents. -/
structure SuiteLoopState where
  last_stop : Int
  cstop : Int
  nextU : Nat
  children : List Nat
  results : List ResultDocument
deriving DecidableEq, Repr

/-- The `for` loop of lines 198-258: thread the cursor (`last_stop or
suite_start` — note the Python falsy test on `0`), emit one result per
case, append its identifier to the children and fold the container stop
with `max`. -/
def suiteLoop (ctx : SuiteCtx) (st : SuiteLoopState) : List TestCase → SuiteLoopState
  | [] => st
  | tc :: rest =>
    let r := mapCase ctx tc st.nextU (pyOrInt st.last_stop ctx.suite_start)
    suiteLoop ctx
      ⟨r.stop, max st.cstop r.stop, st.nextU + 1, st.children ++ [r.uuid], st.results ++ [r]⟩
      rest

/-- The suite-constant context assembled by lines 171-196: suite name
fallback to the file stem, hierarchy labels, and suite-level
property-derived labels and links. -/
def suiteCtxOf (suite_sep default_parent framework_name stem : String)
    (ts : TestSuite) (suite_start : Int) : SuiteCtx :=
  let ts_name := pyOrOptS ts.name stem
  let sp := map_properties_to_labels_links_params (collect_properties ts.properties)
  ⟨framework_name, derive_suite_labels ts_name suite_sep default_parent, sp.1, sp.2.1,
    suite_start⟩

/-- The per-suite body of `convert_file` (lines 170-262): build the
container skeleton, derive suite labels and suite-level property
labels/links, run the case loop, and return the finished
`ContainerDocument` together with the written `ResultDocument`s.
`stem` is `xml_path.stem`, the fallback suite name. -/
def convertSuite (suite_sep default_parent framework_name stem : String)
    (ts : TestSuite) (suite_start : Int) (u0 : Nat) :
    ContainerDocument × List ResultDocument :=
  let ctx := suiteCtxOf suite_sep default_parent framework_name stem ts suite_start
  let fin := suiteLoop ctx ⟨suite_start, suite_start, u0 + 1, [], []⟩ ts.testcases
  ({ uuid := u0, name := pyOrOptS ts.name stem, children := fin.children, befores := [],
     afters := [], links := [], start := suite_start, stop := fin.cstop }, fin.results)

/-- Functional reading of the suite loop: the sequence of result documents
produced from a case list, a cursor and a fresh-token counter.  This is a
proof-side companion of `suiteLoop` (see `suiteLoop_results` etc.). -/
def runCases (ctx : SuiteCtx) : List TestCase → Int → Nat → List ResultDocument
  | [], _, _ => []
  | tc :: rest, last_stop, u =>
    let r := mapCase ctx tc u (pyOrInt last_stop ctx.suite_start)
    r :: runCases ctx rest r.stop (u + 1)

/-! ## `main` (source lines 280-305), for the discovery-failure claim

`main` builds the file list and, if it is empty, executes
`print("No XML files found.", file=sys.stderr)` — but the module never
imports `sys` (its imports, lines 25-34, bind only the names below), so
that line raises an uncaught `NameError` and the interpreter exits with
status 1 (a traceback), not with the intended `sys.exit(2)`.  The model
makes Python's name resolution explicit at this single point. -/

/-- The module-level names bound by the import statements (lines 25-34). -/
def importedNames : List String :=
  ["argparse", "json", "os", "re", "time", "uuid", "hashlib", "ET",
   "Path", "Dict", "List", "Tuple", "Optional"]

/-- How the process terminates. -/
inductive ExitOutcome where
  | exited (code : Nat)
  | uncaughtNameError (missing : String)
deriving DecidableEq, Repr

/-- The discovery/exit behaviour of `main` (lines 294-305) as a function of
the discovered file list, assuming every discovered file converts without a
parse error. -/
def mainOutcome (files : List String) : ExitOutcome :=
  if files.isEmpty then
    if "sys" ∈ importedNames then .exited 2 else .uncaughtNameError "sys"
  else .exited 0

/-! ## Concrete inputs used by counterexamples and witnesses

The negative-duration cases model `<testcase time="-1760000000">`: the
attribute parses (`float("-1760000000")` is exact, the magnitude is far
below `2 ^ 53`), and `int(float(...) * 1000.0) = -1760000000000`, so with a
wall clock of exactly `1760000000000` ms (an instant in October 2025) the
case's computed stop is exactly `0`. -/

/-- A case with `time="-1760000000"` (parses to the exact value `-1760000000`). -/
def c1Case : TestCase :=
  ⟨some "c.D", some "t", some (mkRat (-1760000000) 1), none, none, none, []⟩

/-- A one-case suite whose only child stops before the suite started. -/
def c1Suite : TestSuite := ⟨some "S", [], [c1Case]⟩

/-- A case with `time="0"`. -/
def c2Case : TestCase := ⟨some "c.D", some "t", some (mkRat 0 1), none, none, none, []⟩

/-- A one-case suite whose only case has a zero duration. -/
def c2Suite : TestSuite := ⟨some "S", [], [c2Case]⟩

/-- A case with no `time` attribute, exercising the 1 ms fallback. -/
def c2wCase : TestCase := ⟨none, some "t", none, none, none, none, []⟩

/-- A case with `time="1.5"`. -/
def c2wCase2 : TestCase := ⟨none, some "t", some (mkRat 3 2), none, none, none, []⟩

/-- A case with no failure/error/skipped marker. -/
def c3Case : TestCase := ⟨some "c", some "n", none, none, none, none, []⟩

/-- A case with a `<skipped type="ignored"/>` marker and no message. -/
def c3wSkip : TestCase :=
  ⟨none, some "t", none, none, none, some ⟨none, some "ignored", none⟩, []⟩

/-- A case with `time="0.0126953125"` (the exactly representable double
`13 / 1024`; its product with `1000.0` is also exact, `12.6953125`). -/
def c4Case : TestCase := ⟨none, some "t", some (mkRat 13 1024), none, none, none, []⟩

/-- A case with neither `time` attribute nor markers. -/
def c4wCase : TestCase := ⟨none, some "t", none, none, none, none, []⟩

/-- A plain case: classname `p.C`, name `n`, nothing else. -/
def c5CaseA : TestCase := ⟨some "p.C", some "n", none, none, none, none, []⟩

/-- A case with the same classname and name as `c5CaseA` but a different
duration, a failure marker and extra properties. -/
def c5CaseB : TestCase :=
  ⟨some "p.C", some "n", some (mkRat 5 1), some ⟨some "boom", none, some "tb"⟩, none, none,
    [(some "allure.label.x", some "y")]⟩

/-- A suite context with no suite labels. -/
def c5CtxA : SuiteCtx := ⟨"junit-xml", [], [], [], 0⟩

/-- A different suite context: other framework name, labels and start. -/
def c5CtxB : SuiteCtx := ⟨"other", [⟨"suite", "Z"⟩], [⟨"a", "b"⟩], [⟨"l", "u"⟩], 999⟩

/-- A two-case suite: the first case stops at instant `0`, the second has
`time="1"`. -/
def c7Suite : TestSuite :=
  ⟨some "S", [],
    [⟨some "c.D", some "t1", some (mkRat (-1760000000) 1), none, none, none, []⟩,
     ⟨some "c.D", some "t2", some (mkRat 1 1), none, none, none, []⟩]⟩

/-- A property dict exercising all three prefixes and an unrecognized key. -/
def c8Props : List (String × String) :=
  [("allure.label.epic", "Payments"), ("id", "7"), ("allure.link.ISSUE", "http://x"),
   ("allure.param.p", "1")]

/-- The label the `allure.label.epic=Payments` property should yield. -/
def c8Lab : Label := ⟨"epic", "Payments"⟩

/-- A case carrying only the `allure.label.epic=Payments` property. -/
def c8Case : TestCase :=
  ⟨some "c.D", some "t", none, none, none, none,
    [(some "allure.label.epic", some "Payments")]⟩

/-- A suite context with no suite-level labels. -/
def c8Ctx : SuiteCtx := ⟨"junit-xml", [], [], [], 0⟩

/-- A case whose `name` attribute is absent. -/
def c10Case : TestCase := ⟨some "p.C", none, none, none, none, none, []⟩

/-- A plain suite context for the name-defaulting witness. -/
def c10Ctx : SuiteCtx := ⟨"junit-xml", [], [], [], 0⟩

/-! ## Proof infrastructure -/

/-- Applying `to_ms` to a parsed duration is the truncation toward zero of the exact
product `q * 1000`: the fraction-level `tdiv` in the definition agrees with
the floor-based `ratTrunc`. -/
theorem to_ms_some (q : Rat) : to_ms (some q) = some (ratTrunc (q * 1000)) := by
  have hd : ((q.den : Int) : Rat) ≠ 0 := by
    exact_mod_cast q.den_nz
  have hmul : (q * 1000 : Rat) = ((q.num * 1000 : Int) : Rat) / ((q.den : Int) : Rat) := by
    conv_lhs => rw [← Rat.num_div_den q]
    push_cast
    field_simp
  have hfloor : ⌊(q * 1000 : Rat)⌋ = (q.num * 1000) / (q.den : Int) := by
    rw [hmul]
    exact_mod_cast Rat.floor_intCast_div_natCast (q.num * 1000) q.den
  have hfloorneg : ⌊(-(q * 1000) : Rat)⌋ = (-(q.num * 1000)) / (q.den : Int) := by
    have hneg : (-(q * 1000) : Rat) = ((-(q.num * 1000) : Int) : Rat) / ((q.den : Int) : Rat) := by
      rw [hmul]; push_cast; ring
    rw [hneg]
    exact_mod_cast Rat.floor_intCast_div_natCast (-(q.num * 1000)) q.den
  simp only [to_ms, Option.map_some', ratTrunc, Option.some.injEq]
  by_cases hq : (0 : Rat) ≤ q
  · have hnum : 0 ≤ q.num * 1000 := by
      have := Rat.num_nonneg.2 hq
      positivity
    rw [if_pos (by positivity), Int.tdiv_eq_ediv hnum (by omega), hfloor]
  · have hq' : q < 0 := lt_of_not_le hq
    have hnum : q.num * 1000 < 0 := by
      have : q.num < 0 := by
        by_contra hc
        exact hq (Rat.num_nonneg.1 (le_of_not_lt hc))
      omega
    have hlt : q * 1000 < 0 := mul_neg_of_neg_of_pos hq' (by norm_num)
    have h1 : (-(q.num * 1000)).tdiv (q.den : Int) = (-(q.num * 1000)) / (q.den : Int) :=
      Int.tdiv_eq_ediv (by omega) (by omega)
    have h2 : (q.num * 1000).tdiv (q.den : Int) = -((-(q.num * 1000)).tdiv (q.den : Int)) := by
      simp [Int.neg_tdiv]
    rw [if_neg (not_le.2 hlt), hfloorneg, h2, h1]

/-- The function `testcase_timing` always returns the cursor as the start instant. -/
theorem testcase_timing_start (tc : TestCase) (c : Int) : (testcase_timing tc c).1 = c := by
  cases h : tc.time <;> simp [testcase_timing, to_ms, h]

/-- The uuid of a mapped case is the supplied fresh token. -/
theorem mapCase_uuid (ctx : SuiteCtx) (tc : TestCase) (u : Nat) (c : Int) :
    (mapCase ctx tc u c).uuid = u := rfl

/-- The start of a mapped case is the supplied cursor. -/
theorem mapCase_start (ctx : SuiteCtx) (tc : TestCase) (u : Nat) (c : Int) :
    (mapCase ctx tc u c).start = c := by
  simp [mapCase, testcase_timing_start]

theorem runCases_length (ctx : SuiteCtx) :
    ∀ (tcs : List TestCase) (ls : Int) (u : Nat), (runCases ctx tcs ls u).length = tcs.length := by
  intro tcs
  induction tcs with
  | nil => intro ls u; rfl
  | cons tc rest ih => intro ls u; simp [runCases, ih]

theorem runCases_map_uuid (ctx : SuiteCtx) :
    ∀ (tcs : List TestCase) (ls : Int) (u : Nat),
      (runCases ctx tcs ls u).map (fun r => r.uuid) = List.range' u tcs.length := by
  intro tcs
  induction tcs with
  | nil => intro ls u; rfl
  | cons tc rest ih =>
    intro ls u
    simp only [runCases, List.map_cons, List.length_cons, List.range'_succ, mapCase_uuid]
    exact congrArg (u :: ·) (ih _ _)

theorem suiteLoop_results (ctx : SuiteCtx) :
    ∀ (tcs : List TestCase) (st : SuiteLoopState),
      (suiteLoop ctx st tcs).results = st.results ++ runCases ctx tcs st.last_stop st.nextU := by
  intro tcs
  induction tcs with
  | nil => intro st; simp [suiteLoop, runCases]
  | cons tc rest ih =>
    intro st
    simp only [suiteLoop, runCases, ih, List.append_assoc, List.cons_append, List.nil_append]

theorem suiteLoop_children (ctx : SuiteCtx) :
    ∀ (tcs : List TestCase) (st : SuiteLoopState),
      (suiteLoop ctx st tcs).children =
        st.children ++ (runCases ctx tcs st.last_stop st.nextU).map (fun r => r.uuid) := by
  intro tcs
  induction tcs with
  | nil => intro st; simp [suiteLoop, runCases]
  | cons tc rest ih =>
    intro st
    simp only [suiteLoop, runCases, ih, List.map_cons, List.append_assoc, List.cons_append,
      List.nil_append, mapCase_uuid]

theorem suiteLoop_cstop (ctx : SuiteCtx) :
    ∀ (tcs : List TestCase) (st : SuiteLoopState),
      (suiteLoop ctx st tcs).cstop =
        (runCases ctx tcs st.last_stop st.nextU).foldl (fun m r => max m r.stop) st.cstop := by
  intro tcs
  induction tcs with
  | nil => intro st; simp [suiteLoop, runCases]
  | cons tc rest ih =>
    intro st
    simp only [suiteLoop, runCases, ih, List.foldl_cons]

/-- Folding `max` over a list never goes below the initial value. -/
theorem le_foldl_max (l : List Int) : ∀ i : Int, i ≤ l.foldl max i := by
  induction l with
  | nil => intro i; exact le_refl i
  | cons x rest ih =>
    intro i
    exact le_trans (le_max_left i x) (ih (max i x))

/-- Closed form of `convertSuite`: the result documents are `runCases` of
the case list, the children are their uuids, and the container stop is the
`max`-fold of their stops over the suite start. -/
theorem convertSuite_eq (sep dp fw stem : String) (ts : TestSuite) (S : Int) (u0 : Nat) :
    convertSuite sep dp fw stem ts S u0 =
      ({ uuid := u0, name := pyOrOptS ts.name stem,
         children := (runCases (suiteCtxOf sep dp fw stem ts S) ts.testcases S (u0 + 1)).map
           (fun r => r.uuid),
         befores := [], afters := [], links := [], start := S,
         stop := (runCases (suiteCtxOf sep dp fw stem ts S) ts.testcases S (u0 + 1)).foldl
           (fun m r => max m r.stop) S },
       runCases (suiteCtxOf sep dp fw stem ts S) ts.testcases S (u0 + 1)) := by
  have hch := suiteLoop_children (suiteCtxOf sep dp fw stem ts S) ts.testcases
    ⟨S, S, u0 + 1, [], []⟩
  have hres := suiteLoop_results (suiteCtxOf sep dp fw stem ts S) ts.testcases
    ⟨S, S, u0 + 1, [], []⟩
  have hstop := suiteLoop_cstop (suiteCtxOf sep dp fw stem ts S) ts.testcases
    ⟨S, S, u0 + 1, [], []⟩
  simp only [convertSuite, hch, hres, hstop]
  simp

/-- The first produced result starts at the (falsy-checked) initial cursor. -/
theorem runCases_head_start (ctx : SuiteCtx) (tcs : List TestCase) (ls : Int) (u : Nat) :
    ((runCases ctx tcs ls u).head?.map fun r => r.start) =
      ((runCases ctx tcs ls u).head?.map fun _ => pyOrInt ls ctx.suite_start) := by
  cases tcs with
  | nil => rfl
  | cons tc rest => simp [runCases, mapCase_start]

/-- Consecutive produced results are chained by the cursor re-seeding rule:
each next start is `pyOrInt` of the previous stop and the suite start. -/
theorem runCases_chain (ctx : SuiteCtx) :
    ∀ (tcs : List TestCase) (ls : Int) (u : Nat),
      List.Chain' (fun a b => b.start = pyOrInt a.stop ctx.suite_start) (runCases ctx tcs ls u) := by
  intro tcs
  induction tcs with
  | nil => intro ls u; simp [runCases]
  | cons tc rest ih =>
    intro ls u
    refine List.chain'_cons'.2 ⟨?_, ih _ _⟩
    intro y hy
    cases rest with
    | nil => simp [runCases] at hy
    | cons tc2 rest2 =>
      simp only [runCases, List.head?_cons, Option.mem_def, Option.some.injEq] at hy
      rw [← hy]
      exact mapCase_start ..

/-- Folding the `if`/`elif` routing over a property list appends the three
routing `filterMap`s to the accumulators. -/
theorem foldl_propStep (props : List (String × String)) :
    ∀ (l : List Label) (k : List Link) (p : List Param),
      props.foldl propStep (l, k, p) =
        (l ++ props.filterMap labelOfProp, k ++ props.filterMap linkOfProp,
         p ++ props.filterMap paramOfProp) := by
  induction props with
  | nil => intro l k p; simp
  | cons kv rest ih =>
    intro l k p
    by_cases h1 : pyStartsWith kv.1 "allure.label." = true
    · simp [propStep, labelOfProp, linkOfProp, paramOfProp, h1, ih]
    · by_cases h2 : pyStartsWith kv.1 "allure.link." = true
      · simp [propStep, labelOfProp, linkOfProp, paramOfProp, h1, h2, ih]
      · by_cases h3 : pyStartsWith kv.1 "allure.param." = true
        · simp [propStep, labelOfProp, linkOfProp, paramOfProp, h1, h2, h3, ih]
        · simp [propStep, labelOfProp, linkOfProp, paramOfProp, h1, h2, h3, ih]

/-- Membership in a conditional singleton list. -/
theorem mem_ite_singleton {c : Prop} [Decidable c] (lab x : Label) :
    (lab ∈ (if c then [x] else [])) ↔ c ∧ lab = x := by
  split <;> simp_all

/-- The Python `or`-defaulting of an optional string never yields `""` when
the fallback is itself non-empty. -/
theorem pyOrOptS_ne (a : Option String) {b : String} (hb : b ≠ "") : pyOrOptS a b ≠ "" := by
  cases a with
  | none => exact hb
  | some s =>
    by_cases hs : s = "" <;> simp [pyOrOptS, hs, hb]

/-- Appending to a non-empty string on the left stays non-empty. -/
theorem str_append_ne_left (a b : String) (ha : a ≠ "") : a ++ b ≠ "" := by
  intro h
  have hd := congrArg String.data h
  rw [String.data_append] at hd
  have hae : a.data = [] := (List.append_eq_nil.mp hd).1
  apply ha
  cases a
  simp_all

/-- The default `pyOrS` keeps a non-empty (truthy) left operand. -/
theorem pyOrS_of_ne {a : String} (b : String) (h : a ≠ "") : pyOrS a b = a := if_neg h

/-- Joining a non-empty list of non-empty strings is non-empty. -/
theorem pyJoin_ne_empty (sep : String) :
    ∀ l : List String, l ≠ [] → (∀ x ∈ l, x ≠ "") → pyJoin sep l ≠ ""
  | [], h, _ => absurd rfl h
  | [x], _, hx => by simpa [pyJoin] using hx x (by simp)
  | x :: y :: rest, _, hx => by
    show x ++ sep ++ pyJoin sep (y :: rest) ≠ ""
    exact str_append_ne_left _ _ (str_append_ne_left _ _ (hx x (by simp)))

/-! ## The claims -/

/-- Claim C1, counterexample.  The claim asserts `container.stop` equals
the maximum of the children's stop instants.  For the one-case suite
`c1Suite` (case duration `-1760000000` s) converted at suite start
`1760000000000` ms, the only child's stop is `0`, yet the container's stop
is `1760000000000` — the code folds with `max(container.stop, stop)`
starting from `container.start`, so a child stopping before the suite
start is not reflected.  The third conjunct makes the mismatch explicit. -/
theorem C1_counterexample :
    (convertSuite " / " "Tests" "junit-xml" "f" c1Suite 1760000000000 0).1.stop
        = 1760000000000 ∧
    ((convertSuite " / " "Tests" "junit-xml" "f" c1Suite 1760000000000 0).2.map
        fun r => r.stop) = [0] ∧
    (1760000000000 : Int) ≠ 0 := by
  refine ⟨by decide, by decide, by decide⟩

/-- Claim C1, amended: for every suite with `k` cases the container has
exactly `k` children, one per case in input order (the children list is
exactly the uuid list of the written result documents); the children are
pairwise distinct, so each child identifier corresponds to exactly one
written `ResultDocument`; and `container.stop` is the maximum of
`container.start` and all children's stops (hence `≥ container.start`,
with equality when there are no cases) — rather than the maximum of the
children's stops alone, which fails for negative parsed durations
(`C1_counterexample`). -/
theorem C1_amended (sep dp fw stem : String) (ts : TestSuite) (S : Int) (u0 : Nat) :
    (convertSuite sep dp fw stem ts S u0).1.children.length = ts.testcases.length ∧
    (convertSuite sep dp fw stem ts S u0).1.children =
      (convertSuite sep dp fw stem ts S u0).2.map (fun r => r.uuid) ∧
    (convertSuite sep dp fw stem ts S u0).1.children.Nodup ∧
    (convertSuite sep dp fw stem ts S u0).1.start = S ∧
    (convertSuite sep dp fw stem ts S u0).1.stop =
      ((convertSuite sep dp fw stem ts S u0).2.map (fun r => r.stop)).foldl max S ∧
    (convertSuite sep dp fw stem ts S u0).1.start ≤
      (convertSuite sep dp fw stem ts S u0).1.stop := by
  rw [convertSuite_eq]
  refine ⟨?_, rfl, ?_, rfl, ?_, ?_⟩
  · simp [runCases_length]
  · rw [runCases_map_uuid]
    exact List.nodup_range' _ _
  · rw [List.foldl_map]
  · have h := le_foldl_max
      ((runCases (suiteCtxOf sep dp fw stem ts S) ts.testcases S (u0 + 1)).map fun r => r.stop) S
    rw [List.foldl_map] at h
    exact h

/-- Claim C2, counterexample.  The claim asserts `stop > start` for every
emitted `ResultDocument`.  A case with `time="0"` yields `stop = start`
(the code computes `stop = start + int(float("0") * 1000.0) = start`). -/
theorem C2_counterexample :
    ((convertSuite " / " "Tests" "junit-xml" "f" c2Suite 1760000000000 0).2.map
      fun r => decide (r.start < r.stop)) = [false] := by
  decide

/-- Claim C2, amended: the timing deriver always returns `start = cursor`;
when the `time` attribute is absent or unparsable it returns
`stop = start + 1 > start` (the minimum positive span); when the attribute
parses to a non-negative duration it guarantees only `stop ≥ start`
(equality occurs for zero and sub-millisecond durations, see
`C2_counterexample`), and nothing is guaranteed for negative durations. -/
theorem C2_amended (tc : TestCase) (cursor : Int) :
    (testcase_timing tc cursor).1 = cursor ∧
    (tc.time = none →
      (testcase_timing tc cursor).2 = (testcase_timing tc cursor).1 + 1 ∧
      (testcase_timing tc cursor).1 < (testcase_timing tc cursor).2) ∧
    (∀ d, tc.time = some d → 0 ≤ d →
      (testcase_timing tc cursor).1 ≤ (testcase_timing tc cursor).2) := by
  refine ⟨testcase_timing_start tc cursor, ?_, ?_⟩
  · intro h
    simp only [testcase_timing, to_ms, h, Option.map_none']
    constructor
    · rw [max_eq_left (by omega)]
    · rw [max_eq_left (by omega)]; omega
  · intro d hd hnn
    have hdur : 0 ≤ Int.tdiv (d.num * 1000) (d.den : Int) :=
      Int.tdiv_nonneg (by
        have := Rat.num_nonneg.2 hnn
        positivity) (by omega)
    simp only [testcase_timing, to_ms, hd, Option.map_some']
    omega

/-- Claim C2, witness for `C2_amended`: the 1 ms fallback on a case with no
`time` attribute, and the `stop ≥ start` guarantee on `time="1.5"`. -/
theorem C2_witness :
    (c2wCase.time = none ∧
      (testcase_timing c2wCase 5).2 = (testcase_timing c2wCase 5).1 + 1 ∧
      (testcase_timing c2wCase 5).1 < (testcase_timing c2wCase 5).2) ∧
    (c2wCase2.time = some (mkRat 3 2) ∧ (0 : Rat) ≤ mkRat 3 2 ∧
      (testcase_timing c2wCase2 5).1 ≤ (testcase_timing c2wCase2 5).2) :=
  ⟨⟨rfl, (C2_amended c2wCase 5).2.1 rfl⟩,
   ⟨rfl, by decide, (C2_amended c2wCase2 5).2.2 (mkRat 3 2) rfl (by decide)⟩⟩

/-- Claim C4, counterexample.  The claim says a parsed duration `d` yields
`stop = start + round(d × 1000)`.  For `time="0.0126953125"` (exactly the
double `13/1024`; the product with `1000.0` is the exact `12.6953125`) the
code adds `int(12.6953125) = 12`, while `round(12.6953125) = 13`:  the
implementation truncates toward zero, it does not round. -/
theorem C4_counterexample :
    (testcase_timing c4Case 0).2 - (testcase_timing c4Case 0).1 = 12 ∧
    round ((mkRat 13 1024 : Rat) * 1000) = 13 ∧
    (12 : Int) ≠ 13 := by
  refine ⟨by decide, ?_, by decide⟩
  rw [round_eq]
  have h : (mkRat 13 1024 : Rat) = 13 / 1024 := by
    rw [Rat.mkRat_eq_divInt, Rat.divInt_eq_div]
    norm_num
  rw [h]
  norm_num

/-- Claim C4, amended: for a case whose `time` attribute parses to the
value `d`, the timing deriver returns `start = cursor` and
`stop = start + trunc(d × 1000)` where `trunc` is truncation toward zero
(Python `int()`), not rounding (see `C4_counterexample`); for an absent or
unparsable attribute it returns `(cursor, cursor + 1)`; it is a total
function, never raising. -/
theorem C4_amended (tc : TestCase) (cursor : Int) :
    (∀ d, tc.time = some d →
      testcase_timing tc cursor = (cursor, cursor + ratTrunc (d * 1000))) ∧
    (tc.time = none → testcase_timing tc cursor = (cursor, cursor + 1)) := by
  constructor
  · intro d hd
    simp only [testcase_timing, hd, to_ms_some]
  · intro h
    simp only [testcase_timing, to_ms, h, Option.map_none']
    rw [max_eq_left (by omega)]

/-- Claim C4, witness for `C4_amended`: both branches at concrete inputs
(`time="0.0126953125"` and an absent attribute). -/
theorem C4_witness :
    (c4Case.time = some (mkRat 13 1024) ∧
      testcase_timing c4Case 7 = (7, 7 + ratTrunc ((mkRat 13 1024 : Rat) * 1000))) ∧
    (c4wCase.time = none ∧ testcase_timing c4wCase 7 = (7, 7 + 1)) :=
  ⟨⟨rfl, (C4_amended c4Case 7).1 (mkRat 13 1024) rfl⟩,
   ⟨rfl, (C4_amended c4wCase 7).2 rfl⟩⟩

/-- Claim C7, counterexample.  The claim asserts every subsequent case's
start equals the previous case's stop.  In `c7Suite` the first case stops
at exactly `0`; the Python re-seeding `last_stop or suite_start` treats
`0` as falsy, so the second case starts at the suite start
(`1760000000000`), not at `0`. -/
theorem C7_counterexample :
    ((convertSuite " / " "Tests" "junit-xml" "f" c7Suite 1760000000000 0).2.map
        fun r => r.start) = [1760000000000, 1760000000000] ∧
    ((convertSuite " / " "Tests" "junit-xml" "f" c7Suite 1760000000000 0).2.map
        fun r => r.stop) = [0, 1760000001000] ∧
    (1760000000000 : Int) ≠ 0 := by
  refine ⟨by decide, by decide, by decide⟩

/-- Claim C7, amended: within one suite the cursor threads sequentially —
the first case starts at the suite's start instant, and each subsequent
case starts at `pyOrInt previous.stop suiteStart`, i.e. at the previous
case's stop unless that stop is exactly `0` (Python falsiness), in which
case the cursor re-seeds to the suite start (`C7_counterexample`); the
resulting layout is non-overlapping and sequential only when every
duration is non-negative. -/
theorem C7_amended (sep dp fw stem : String) (ts : TestSuite) (S : Int) (u0 : Nat) :
    ((convertSuite sep dp fw stem ts S u0).2.head?.map fun r => r.start) =
      ((convertSuite sep dp fw stem ts S u0).2.head?.map fun _ => S) ∧
    List.Chain' (fun a b => b.start = pyOrInt a.stop S)
      (convertSuite sep dp fw stem ts S u0).2 := by
  rw [convertSuite_eq]
  constructor
  · have h := runCases_head_start (suiteCtxOf sep dp fw stem ts S) ts.testcases S (u0 + 1)
    simpa [suiteCtxOf, pyOrInt] using h
  · have h := runCases_chain (suiteCtxOf sep dp fw stem ts S) ts.testcases S (u0 + 1)
    simpa [suiteCtxOf] using h

/-- Claim C3, counterexample.  The claim asserts that absent message/trace
values normalize to empty strings, "never missing", so a case with no
markers has detail message and trace both `""`.  In fact `map_status`
returns the empty detail object `{}` (modelled `none`) for a passed case:
the `message`/`trace` keys are absent from the emitted JSON, not `""`. -/
theorem C3_counterexample :
    map_status c3Case = ("passed", none) ∧
    (none : Option StatusDetails) ≠ some ⟨"", ""⟩ := by
  decide

/-- Claim C3, amended: the classifier applies the priority
failure → `"failed"`, else error → `"broken"`, else skipped → `"skipped"`
(the skipped message preferring the non-empty `message` attribute over the
`type` attribute), else `"passed"`; for the three marker outcomes all
message/body text is stripped and absent attributes normalize to `""` in
the detail, but a case with no markers yields `"passed"` with an *empty*
detail object — no message or trace entries at all
(`C3_counterexample`). -/
theorem C3_amended (tc : TestCase) :
    (∀ f, tc.failure = some f →
      map_status tc =
        ("failed", some ⟨pyStrip (pyOrOptS f.message ""), pyStrip (f.text.getD "")⟩)) ∧
    (∀ e, tc.failure = none → tc.error = some e →
      map_status tc =
        ("broken", some ⟨pyStrip (pyOrOptS e.message ""), pyStrip (e.text.getD "")⟩)) ∧
    (∀ sk, tc.failure = none → tc.error = none → tc.skipped = some sk →
      map_status tc =
        ("skipped",
         some ⟨pyStrip (pyOrOptS sk.message (pyOrOptS sk.type "")),
               pyStrip (sk.text.getD "")⟩)) ∧
    (tc.failure = none → tc.error = none → tc.skipped = none →
      map_status tc = ("passed", none)) := by
  refine ⟨?_, ?_, ?_, ?_⟩
  · intro f hf
    simp [map_status, hf]
  · intro e hf he
    simp [map_status, hf, he]
  · intro sk hf he hs
    simp [map_status, hf, he, hs]
  · intro hf he hs
    simp [map_status, hf, he, hs]

/-- Claim C3, witness for `C3_amended`: the spec's skipped example — a
`<skipped type="ignored"/>` marker with no message yields status
`"skipped"` with detail message `"ignored"`. -/
theorem C3_witness :
    c3wSkip.failure = none ∧ c3wSkip.error = none ∧
    c3wSkip.skipped = some ⟨none, some "ignored", none⟩ ∧
    map_status c3wSkip =
      ("skipped", some ⟨pyStrip (pyOrOptS none (pyOrOptS (some "ignored") "")),
        pyStrip ((none : Option String).getD "")⟩) :=
  ⟨rfl, rfl, rfl, (C3_amended c3wSkip).2.2.1 ⟨none, some "ignored", none⟩ rfl rfl rfl⟩

/-- Claim C5: `historyId` is a pure function of the case's classname and
name — for any two cases with equal `classname` and `name` attributes, in
arbitrary (possibly different) suite contexts, with arbitrary fresh
document identifiers and arbitrary timing cursors (hence independent of
the fresh identifier, the wall clock and every timing value, all of which
enter `mapCase` only through `ctx`, `u` and `c`), the computed
`historyId` coincides.  Determinism across runs holds because
`stable_hash` is a function. -/
theorem C5_historyId (ctx1 ctx2 : SuiteCtx) (tc1 tc2 : TestCase) (u1 u2 : Nat) (c1 c2 : Int)
    (hcl : tc1.classname = tc2.classname) (hn : tc1.name = tc2.name) :
    (mapCase ctx1 tc1 u1 c1).historyId = (mapCase ctx2 tc2 u2 c2).historyId := by
  simp only [mapCase, hcl, hn]

/-- Claim C5, witness for `C5_historyId`: two cases sharing classname
`p.C` and name `n` but differing in duration, markers, properties, suite
context, fresh identifier and cursor still get the same `historyId`. -/
theorem C5_witness :
    c5CaseA.classname = c5CaseB.classname ∧ c5CaseA.name = c5CaseB.name ∧
    (mapCase c5CtxA c5CaseA 1 100).historyId = (mapCase c5CtxB c5CaseB 42 9999).historyId :=
  ⟨rfl, rfl, C5_historyId c5CtxA c5CtxB c5CaseA c5CaseB 1 42 100 9999 rfl rfl⟩

/-- Claim C6: `derive_suite_labels` splits the suite name on the separator
and strips each part; with `≥ 3` parts it emits
`parentSuite = part 0`, `suite = part 1`,
`subSuite = join(parts 2.., sep)` in that order; with exactly 2 parts it
emits `parentSuite`/`suite`; with exactly 1 non-empty part it emits
`parentSuite = defaultParent`, `suite = part 0`; with an empty suite name
it emits nothing.  The `sep ≠ ""` hypothesis restricts to the domain where
the model's splitting is faithful (Python `str.split` raises on an empty
separator). -/
theorem C6_labels (ts_name sep dp : String) (hsep : sep ≠ "") :
    (ts_name = "" → derive_suite_labels ts_name sep dp = []) ∧
    (∀ p0 p1 p2 rest, ts_name ≠ "" →
      (pySplit ts_name sep).map pyStrip = p0 :: p1 :: p2 :: rest →
      derive_suite_labels ts_name sep dp =
        [⟨"parentSuite", p0⟩, ⟨"suite", p1⟩, ⟨"subSuite", pyJoin sep (p2 :: rest)⟩]) ∧
    (∀ p0 p1, ts_name ≠ "" → (pySplit ts_name sep).map pyStrip = [p0, p1] →
      derive_suite_labels ts_name sep dp = [⟨"parentSuite", p0⟩, ⟨"suite", p1⟩]) ∧
    (∀ p0, ts_name ≠ "" → (pySplit ts_name sep).map pyStrip = [p0] → p0 ≠ "" →
      derive_suite_labels ts_name sep dp = [⟨"parentSuite", dp⟩, ⟨"suite", p0⟩]) := by
  refine ⟨?_, ?_, ?_, ?_⟩
  · intro h
    simp [derive_suite_labels, h]
  · intro p0 p1 p2 rest hne hp
    simp [derive_suite_labels, hne, hp]
  · intro p0 p1 hne hp
    simp [derive_suite_labels, hne, hp]
  · intro p0 hne hp hp0
    simp [derive_suite_labels, hne, hp, hp0]

/-- Claim C6, witness for `C6_labels`: the specification's worked example
`deriveSuiteHierarchy("Web / Checkout / Cart", " / ", "Tests")`. -/
theorem C6_witness :
    (" / " : String) ≠ "" ∧
    ("Web / Checkout / Cart" : String) ≠ "" ∧
    (pySplit "Web / Checkout / Cart" " / ").map pyStrip = ["Web", "Checkout", "Cart"] ∧
    derive_suite_labels "Web / Checkout / Cart" " / " "Tests" =
      [⟨"parentSuite", "Web"⟩, ⟨"suite", "Checkout"⟩, ⟨"subSuite", pyJoin " / " ["Cart"]⟩] :=
  ⟨by decide, by decide, by decide,
   (C6_labels "Web / Checkout / Cart" " / " "Tests" (by decide)).2.1
     "Web" "Checkout" "Cart" [] (by decide) (by decide)⟩

/-- Claim C9: the code *intends* to report the empty-discovery condition
and `sys.exit(2)`, but the module never imports `sys` (see
`importedNames`), so the no-files branch raises an uncaught `NameError`
and the interpreter exits with status 1 (a traceback), not the distinct
status 2 the spec describes; with at least one discovered file (all
converting cleanly) it exits 0 as claimed.  This is a code bug: the
`sys.exit(2)` call in the source shows the spec captures the intent. -/
theorem C9_main_bug :
    mainOutcome [] = ExitOutcome.uncaughtNameError "sys" ∧
    mainOutcome ["report.xml"] = ExitOutcome.exited 0 ∧
    ExitOutcome.uncaughtNameError "sys" ≠ ExitOutcome.exited 2 ∧
    "sys" ∉ importedNames := by
  decide

/-- Claim C8: property expansion routes each key by recognized prefix —
the three output lists are exactly the order-preserving routing
`filterMap`s over the (insertion-ordered) property dict, so
`allure.label.X=V` yields label `(X, V)`, `allure.link.X=V` yields link
`(X, V)`, `allure.param.X=V` yields parameter `(X, V)`, and unmatched keys
are silently dropped; moreover a label that is not one of the five fixed
framework labels and not among the suite-level labels occurs in a case's
document exactly when the case's own properties produce it — so a
case-level property-derived label appears in that case's `ResultDocument`
and (since `ContainerDocument` carries no labels and other cases' label
lists are computed from their own properties by this same rule) nowhere
else. -/
theorem C8_properties (props : List (String × String)) (ctx : SuiteCtx) (tc : TestCase)
    (u : Nat) (c : Int) (lab : Label)
    (h1 : lab.name ∉
      (["framework", "language", "package", "testClass", "testMethod"] : List String))
    (h2 : lab ∉ ctx.suite_labels) (h3 : lab ∉ ctx.sp_labels) :
    map_properties_to_labels_links_params props =
      (props.filterMap labelOfProp, props.filterMap linkOfProp,
       props.filterMap paramOfProp) ∧
    (lab ∈ (mapCase ctx tc u c).labels ↔
      lab ∈ (map_properties_to_labels_links_params (collect_properties tc.properties)).1) := by
  constructor
  · simp only [map_properties_to_labels_links_params]
    rw [foldl_propStep]
    simp
  · simp only [List.mem_cons, List.not_mem_nil, or_false, not_or] at h1
    obtain ⟨hf, hl, hp, hc, hm⟩ := h1
    simp only [mapCase, List.append_assoc, List.mem_append, List.mem_cons,
      List.not_mem_nil, or_false, mem_ite_singleton]
    constructor
    · rintro ((rfl | rfl) | ⟨-, rfl⟩ | ⟨-, rfl⟩ | ⟨-, rfl⟩ | hE | hE | hE)
      · exact absurd rfl hf
      · exact absurd rfl hl
      · exact absurd rfl hp
      · exact absurd rfl hc
      · exact absurd rfl hm
      · exact absurd hE h2
      · exact absurd hE h3
      · exact hE
    · intro hE
      exact Or.inr (Or.inr (Or.inr (Or.inr (Or.inr (Or.inr hE)))))

/-- Claim C8, witness for `C8_properties`: the spec's example property
`allure.label.epic=Payments` on a case, a dict also exercising the link
and parameter prefixes and an unmatched key, and a context with no suite
labels.  The final conjunct evaluates the routing on the concrete dict:
the `id` key is dropped and each output list preserves insertion order. -/
theorem C8_witness :
    c8Lab.name ∉
      (["framework", "language", "package", "testClass", "testMethod"] : List String) ∧
    c8Lab ∉ c8Ctx.suite_labels ∧ c8Lab ∉ c8Ctx.sp_labels ∧
    (map_properties_to_labels_links_params c8Props =
      (c8Props.filterMap labelOfProp, c8Props.filterMap linkOfProp,
       c8Props.filterMap paramOfProp) ∧
     (c8Lab ∈ (mapCase c8Ctx c8Case 5 100).labels ↔
      c8Lab ∈ (map_properties_to_labels_links_params (collect_properties c8Case.properties)).1)) ∧
    map_properties_to_labels_links_params c8Props =
      ([⟨"epic", "Payments"⟩], [⟨"ISSUE", "http://x"⟩], [⟨"p", "1"⟩]) :=
  ⟨by decide, by decide, by decide,
   C8_properties c8Props c8Ctx c8Case 5 100 c8Lab (by decide) (by decide) (by decide),
   by decide⟩

/-- Claim C10: whatever the input case, the converter's substituted name
(`tc.get("name") or "test"`) is non-empty — in particular a case with an
absent or empty `name` attribute gets the literal `"test"` — hence the
emitted document's `name` and `fullName` are non-empty, the `testMethod`
label is always present with the document's name as value, and the
`historyId` is the fingerprint of the document's `fullName`: the
`classname + "::" + name` fallback branch is never taken. -/
theorem C10_name_default (ctx : SuiteCtx) (tc : TestCase) (u : Nat) (c : Int) :
    (tc.name = none ∨ tc.name = some "" → (mapCase ctx tc u c).name = "test") ∧
    (mapCase ctx tc u c).name ≠ "" ∧
    (mapCase ctx tc u c).fullName ≠ "" ∧
    Label.mk "testMethod" (mapCase ctx tc u c).name ∈ (mapCase ctx tc u c).labels ∧
    (mapCase ctx tc u c).historyId = stable_hash ((mapCase ctx tc u c).fullName) := by
  have hname : pyOrOptS tc.name "test" ≠ "" := pyOrOptS_ne tc.name (by decide)
  have hmem : pyOrOptS tc.name "test" ∈
      List.filter (fun x => x ≠ "")
        [(split_classname (tc.classname.getD "")).1,
         (split_classname (tc.classname.getD "")).2, pyOrOptS tc.name "test"] :=
    List.mem_filter.2 ⟨by simp, by simp [hname]⟩
  have hfull :
      pyJoin "." (List.filter (fun x => x ≠ "")
        [(split_classname (tc.classname.getD "")).1,
         (split_classname (tc.classname.getD "")).2, pyOrOptS tc.name "test"]) ≠ "" := by
    apply pyJoin_ne_empty
    · exact List.ne_nil_of_mem hmem
    · intro x hx
      have hpx := (List.mem_filter.1 hx).2
      simpa using hpx
  refine ⟨?_, ?_, ?_, ?_, ?_⟩
  · rintro (hn | hn) <;> simp [mapCase, pyOrOptS, hn]
  · simpa only [mapCase] using hname
  · simp only [mapCase]
    rw [pyOrS_of_ne _ hfull]
    exact hfull
  · simp only [mapCase, List.append_assoc, List.mem_append, mem_ite_singleton]
    exact Or.inr (Or.inr (Or.inr (Or.inl ⟨hname, trivial⟩)))
  · simp only [mapCase]
    rw [pyOrS_of_ne _ hfull, pyOrS_of_ne _ hfull]

/-- Claim C10, witness for `C10_name_default`: a case whose `name`
attribute is absent gets the literal `"test"` and all the stated
consequences. -/
theorem C10_witness :
    (c10Case.name = none ∨ c10Case.name = some "") ∧
    (mapCase c10Ctx c10Case 3 50).name = "test" ∧
    (mapCase c10Ctx c10Case 3 50).name ≠ "" ∧
    (mapCase c10Ctx c10Case 3 50).fullName ≠ "" ∧
    Label.mk "testMethod" (mapCase c10Ctx c10Case 3 50).name ∈
      (mapCase c10Ctx c10Case 3 50).labels ∧
    (mapCase c10Ctx c10Case 3 50).historyId =
      stable_hash ((mapCase c10Ctx c10Case 3 50).fullName) := by
  have h := C10_name_default c10Ctx c10Case 3 50
  exact ⟨Or.inl rfl, h.1 (Or.inl rfl), h.2.1, h.2.2.1, h.2.2.2.1, h.2.2.2.2⟩
